import Mathlib

/-!
Shallow embedding of the whitelodge state-container core (`src/index.js`):
the `Store` class (constructor, `setStoreState`, `subscribe`, `unsubscribe`,
`addCurrentStateToPreviousStates`), the registry publisher
`makeStoresGloballyAvailable`, and the `componentWillUnmount` detachment of
the `AddStoreSubscriptions` wrapper class.

JavaScript numbers are modelled as `Option ℚ` at coercion boundaries
(`none` plays NaN); state objects are association lists of own enumerable
string keys in property order; exceptions are modelled with `Except` /
explicit error fields, and mutation as explicit state passing.  Exceptions
thrown mid-method leave earlier field mutations in place, which the models
reproduce by returning the partially mutated store together with the error.
-/

namespace Whitelodge

/-- A JavaScript value, restricted to the forms the library inspects:
`isObject` (the `isobject` package) distinguishes plain objects from
null, arrays and primitives, and `Number(...)` coerces primitives. -/
inductive JSVal : Type where
  | vnull : JSVal
  | vundef : JSVal
  | vbool : Bool → JSVal
  | vnum : ℚ → JSVal
  | vstr : String → JSVal
  | varr : List JSVal → JSVal
  | vobj : List (String × JSVal) → JSVal

/-- A JS object's own enumerable string-keyed properties, in property order. -/
abbrev JSObj := List (String × JSVal)

/-- The `isobject` package: `val != null && typeof val === 'object' &&
Array.isArray(val) === false`. -/
def isObject : JSVal → Bool
  | .vobj _ => true
  | _ => false

/-- `typeof v === 'string' && v.length` test used on store names. -/
def isNonEmptyString : JSVal → Bool
  | .vstr s => !s.isEmpty
  | _ => false

/-- `typeof v === 'boolean'`. -/
def isBoolean : JSVal → Bool
  | .vbool _ => true
  | _ => false

/-- Numeric parse of a string for `Number(string)`: the empty string
coerces to 0, a pure digit string to its value, anything else to NaN.
(Signs, fractions and exponents never occur in this development.) -/
def parseNumberLit (s : String) : Option ℚ :=
  if s.isEmpty then some 0
  else if s.all Char.isDigit then some ((s.toNat!.cast : ℚ))
  else none

/-- JS `Number(v)` (ToNumber), `none` standing for NaN.  Plain objects
coerce through `"[object Object]"` to NaN; arrays coerce through their
`toString`, modelled for the empty and single-number cases. -/
def toNumber : JSVal → Option ℚ
  | .vnum q => some q
  | .vbool b => some (if b then 1 else 0)
  | .vnull => some 0
  | .vundef => none
  | .vstr s => parseNumberLit s
  | .varr [] => some 0
  | .varr [.vnum q] => some q
  | .varr _ => none
  | .vobj _ => none

/-- `target[k] = v` on a JS object: an existing key is updated in place
(property order preserved), a new key is appended. -/
def objSet (o : JSObj) (k : String) (v : JSVal) : JSObj :=
  if o.any (fun p => p.1 = k) then
    o.map (fun p => if p.1 = k then (k, v) else p)
  else o ++ [(k, v)]

/-- `Object.assign(target, source)`: source's own enumerable keys are
copied onto target in property order. -/
def objAssign (target source : JSObj) : JSObj :=
  source.foldl (fun acc p => objSet acc p.1 p.2) target

/-- A subscriber reference.  `id` stands for object identity (the code
compares subscribers with `===`); `hasSetState` is whether
`isFunction(subscriber.setState)` holds; `throwsOnNotify` is whether its
`setState` callback throws when invoked. -/
structure Subscriber where
  id : Nat
  hasSetState : Bool
  throwsOnNotify : Bool
deriving Repr, DecidableEq

/-- The errors `throwError` raises, by call site, plus the TypeError the
runtime raises for a method call on a value without that method. -/
inductive WLError : Type where
  | invalidName : WLError
  | stateMustBeObject : WLError
  | invalidLogFlag : WLError
  | invalidNKeep : WLError
  | subscriberLacksSetState : WLError
  | alreadySubscribed : WLError
  | notAnArray : WLError
  | notAStoreInstance : WLError
  | duplicateStoreName : String → WLError
  | subscriberThrew : WLError
  | typeErrorNoForEach : WLError
deriving Repr, DecidableEq

/-- The fields of a `Store` instance. -/
structure Store where
  name : String
  state : JSObj
  previousStates : List JSObj
  subscribers : List Subscriber
  logStateToConsole : Bool
  /-- The already-coerced `Number(numberOfPreviousStatesToKeep)`; NaN is
  rejected by construction-time validation, so a plain `ℚ` suffices. -/
  numberOfPreviousStatesToKeep : ℚ

/-- The `clone` package makes a value-independent deep copy; on the pure
value representation a deep copy is the value itself. -/
def clone (o : JSObj) : JSObj := o

/-- `JS slice(0, n)` with the ToIntegerOrInfinity truncation of a
(validated, hence ≥ 1 and finite) fractional bound. -/
def jsSliceTo (l : List JSObj) (n : ℚ) : List JSObj :=
  l.take ⌊n⌋.toNat

/--
```
addCurrentStateToPreviousStates () {
  this.previousStates.unshift(clone(this.state))
  if (this.previousStates.length > this.numberOfPreviousStatesToKeep) {
    this.previousStates = this.previousStates.slice(0, this.numberOfPreviousStatesToKeep)
  }
}
```
-/
def addCurrentStateToPreviousStates (s : Store) : Store :=
  { s with previousStates :=
      if ((clone s.state :: s.previousStates).length : ℚ) > s.numberOfPreviousStatesToKeep then
        jsSliceTo (clone s.state :: s.previousStates) s.numberOfPreviousStatesToKeep
      else clone s.state :: s.previousStates }

/-- One `subscriber.setState({[this.name]: this})` invocation: the
subscriber invoked, the payload's single key, and the store reference it
receives (whose `state` is already the merged state). -/
structure NotifyEvent where
  subscriberId : Nat
  payloadKey : String
  payloadStore : Store

/-- The notification loop `this.subscribers.forEach(subscriber =>
subscriber.setState({[this.name]: this}))`: invocations happen in list
order; a throwing callback propagates and aborts the rest of the loop. -/
def notifyLoop (st : Store) : List Subscriber → List NotifyEvent × Option WLError
  | [] => ([], none)
  | sub :: rest =>
    if sub.throwsOnNotify then
      ([⟨sub.id, st.name, st⟩], some .subscriberThrew)
    else
      let (evs, err) := notifyLoop st rest
      (⟨sub.id, st.name, st⟩ :: evs, err)

/-- A `console.log` line from `doLogStateToConsole` (name and logged
state; the wall-clock timestamp is outside the model). -/
structure LogEntry where
  storeName : String
  loggedState : JSObj

/-- Outcome of a `setStoreState` call: the store as left after the call
(mutations before a throw persist), the `setState` invocations that
happened, the console line if one was emitted, and the propagated
exception if the call threw. -/
structure CallResult where
  store : Store
  notifications : List NotifyEvent
  log : Option LogEntry
  error : Option WLError

/--
```
setStoreState (newState) {
  validateNewState(newState)
  this.addCurrentStateToPreviousStates()
  Object.assign(this.state, newState)
  this.subscribers.forEach(subscriber => {
    subscriber.setState({[this.name]: this})
  })
  this.doLogStateToConsole()
}
```
-/
def setStoreState (s : Store) (newState : JSVal) : CallResult :=
  match newState with
  | .vobj props =>
    let s1 := addCurrentStateToPreviousStates s
    let s2 := { s1 with state := objAssign s1.state props }
    match notifyLoop s2 s2.subscribers with
    | (evs, some e) => ⟨s2, evs, none, some e⟩
    | (evs, none) =>
      ⟨s2, evs, if s2.logStateToConsole then some ⟨s2.name, s2.state⟩ else none, none⟩
  | _ => ⟨s, [], none, some .stateMustBeObject⟩

/--
```
validateArguments (name, initialState, logStateToConsole, numberOfPreviousStatesToKeep) {
  if (typeof name !== 'string' || !name.length) throwError(...)
  validateNewState(initialState)
  if (typeof logStateToConsole !== 'boolean') throwError(...)
  if (isNaN(numberOfPreviousStatesToKeep) || numberOfPreviousStatesToKeep < 1) throwError(...)
}
```
(`numberOfPreviousStatesToKeep` arrives already coerced by `Number`.) -/
def validateArguments (name initialState logStateToConsole : JSVal)
    (numberOfPreviousStatesToKeep : Option ℚ) : Option WLError :=
  if !isNonEmptyString name then some .invalidName
  else if !isObject initialState then some .stateMustBeObject
  else if !isBoolean logStateToConsole then some .invalidLogFlag
  else
    match numberOfPreviousStatesToKeep with
    | none => some .invalidNKeep
    | some q => if q < 1 then some .invalidNKeep else none

/-- `typeof name === 'string'` projection once validation has passed. -/
def asString : JSVal → String
  | .vstr s => s
  | _ => ""

/-- Boolean projection once validation has passed. -/
def asBool : JSVal → Bool
  | .vbool b => b
  | _ => false

/--
```
constructor (name, initialState = {}, logStateToConsole = false, numberOfPreviousStatesToKeep = 15) {
  const parsedNumberOfPreviousStatesToKeep = Number(numberOfPreviousStatesToKeep)
  this.validateArguments(name, initialState, logStateToConsole, parsedNumberOfPreviousStatesToKeep)
  this.name = name
  this.state = {}
  this.previousStates = []
  this.subscribers = []
  this.logStateToConsole = logStateToConsole
  this.numberOfPreviousStatesToKeep = parsedNumberOfPreviousStatesToKeep
  this.setStoreState(initialState)
}
```
A throw anywhere aborts construction, so the result is `Except`. -/
def mkStore (name initialState logStateToConsole numberOfPreviousStatesToKeep : JSVal) :
    Except WLError Store :=
  match validateArguments name initialState logStateToConsole
      (toNumber numberOfPreviousStatesToKeep) with
  | some e => .error e
  | none =>
    match setStoreState
        { name := asString name
          state := []
          previousStates := []
          subscribers := []
          logStateToConsole := asBool logStateToConsole
          numberOfPreviousStatesToKeep := (toNumber numberOfPreviousStatesToKeep).getD 0 }
        initialState with
    | ⟨_, _, _, some e⟩ => .error e
    | ⟨st, _, _, none⟩ => .ok st

/-- `new Store(name)` with the declaration's default parameter values
`initialState = {}`, `logStateToConsole = false`,
`numberOfPreviousStatesToKeep = 15`. -/
def mkStoreDefaults (name : JSVal) : Except WLError Store :=
  mkStore name (.vobj []) (.vbool false) (.vnum 15)

/--
```
subscribe (newSubscriber) {
  if (!isFunction(newSubscriber.setState)) throwError(...)
  this.subscribers.forEach(subscriber => {
    if (subscriber === newSubscriber) throwError(...)
  })
  this.subscribers.push(newSubscriber)
}
```
-/
def subscribe (s : Store) (newSubscriber : Subscriber) : Except WLError Store :=
  if !newSubscriber.hasSetState then .error .subscriberLacksSetState
  else if s.subscribers.contains newSubscriber then .error .alreadySubscribed
  else .ok { s with subscribers := s.subscribers ++ [newSubscriber] }

/-- The scan-and-splice of `unsubscribe`: remove the first `===` match,
leave the list alone when there is none. -/
def removeFirst : List Subscriber → Subscriber → List Subscriber
  | [], _ => []
  | x :: xs, u => if x = u then xs else x :: removeFirst xs u

/--
```
unsubscribe (unsubscriber) {
  for (let i = 0; i < this.subscribers.length; i++) {
    if (this.subscribers[i] === unsubscriber) {
      this.subscribers.splice(i, 1)
      break
    }
  }
}
```
-/
def unsubscribe (s : Store) (unsubscriber : Subscriber) : Store :=
  { s with subscribers := removeFirst s.subscribers unsubscriber }

/-- The JS shape of `root[rootObjectName].stores`.  The registry publisher
builds it with `stores.reduce(..., {})`, so at runtime it is a plain
object (name-to-store entries in insertion order), not an array; the
distinction matters because only arrays carry a callable `forEach`. -/
inductive StoresValue : Type where
  | plainObject : List (String × Store) → StoresValue
  | array : List Store → StoresValue

/-- The process-wide root: `root[rootObjectName]` is either absent
(deleted / never set) or holds `{stores: ...}`. -/
structure RootState where
  whitelodge : Option StoresValue

/-- The argument of `makeStoresGloballyAvailable` as the code inspects
it: `none` for a non-array value; an element is `none` when it fails the
`instanceof Store` test. -/
abbrev StoresArg := Option (List (Option Store))

/-- The `reduce` body: fail on a name already seen (`storeNames.indexOf
(store.name) > -1`), else push the name and set `storesObject[store.name]
= store`. -/
def buildStoresObject : List Store → List String → List (String × Store) →
    Except WLError (List (String × Store))
  | [], _, acc => .ok acc
  | st :: rest, storeNames, acc =>
    if storeNames.contains st.name then .error (.duplicateStoreName st.name)
    else
      let acc' :=
        if acc.any (fun p => p.1 = st.name) then
          acc.map (fun p => if p.1 = st.name then (st.name, st) else p)
        else acc ++ [(st.name, st)]
      buildStoresObject rest (storeNames ++ [st.name]) acc'

/--
```
export const makeStoresGloballyAvailable = stores => {
  if (!Array.isArray(stores)) throwError(...)
  stores.forEach(store => {
    if (!(store instanceof Store)) throwError(...)
  })
  delete root[rootObjectName]
  const storeNames = []
  root[rootObjectName] = {stores: stores.reduce((storesObject, store) => {
    if (storeNames.indexOf(store.name) > -1) throwError(...)
    storeNames.push(store.name)
    storesObject[store.name] = store
    return storesObject
  }, {})}
}
```
The result pairs the root slot as the call leaves it with the propagated
error, if any.  Note the `delete` runs before the `reduce`, so a throw
inside the `reduce` leaves the root slot deleted and unassigned. -/
def makeStoresGloballyAvailable (root : RootState) (stores : StoresArg) :
    RootState × Option WLError :=
  match stores with
  | none => (root, some .notAnArray)
  | some elems =>
    if elems.any Option.isNone then (root, some .notAStoreInstance)
    else
      match buildStoresObject (elems.filterMap id) [] [] with
      | .error e => (⟨none⟩, some e)
      | .ok storesObject => (⟨some (.plainObject storesObject)⟩, none)

/--
```
componentWillUnmount () {
  root[rootObjectName].stores.forEach(store => {
    store.unsubscribe(this)
  })
}
```
from the class `AddStoreSubscriptions` produces; `self` is the mounted
wrapper instance as a subscriber reference.  The member call
`stores.forEach(...)` resolves `forEach` on the stores value first: an
array finds `Array.prototype.forEach`, while a plain object (prototype
`Object.prototype`) has no `forEach` property, so the call throws
`TypeError` before any `unsubscribe` runs. -/
def componentWillUnmount (stores : StoresValue) (self : Subscriber) :
    Except WLError StoresValue :=
  match stores with
  | .array sts => .ok (.array (sts.map (fun st => unsubscribe st self)))
  | .plainObject _ => .error .typeErrorNoForEach

/-- An operation a caller can perform on a store after construction. -/
inductive StoreOp : Type where
  | setState : JSVal → StoreOp
  | sub : Subscriber → StoreOp
  | unsub : Subscriber → StoreOp

/-- The store as one operation leaves it: `setStoreState` keeps whatever
mutations happened before a throw; a failed `subscribe` throws before
touching the list. -/
def applyOp (s : Store) : StoreOp → Store
  | .setState v => (setStoreState s v).store
  | .sub x =>
    match subscribe s x with
    | .ok s' => s'
    | .error _ => s
  | .unsub x => unsubscribe s x

/-- Stores reachable from a successful construction by any sequence of
method calls (failed calls included, since they leave the fields as the
throw left them). -/
inductive Reachable : Store → Prop where
  | init (name initialState logStateToConsole numberOfPreviousStatesToKeep : JSVal)
      (s : Store)
      (h : mkStore name initialState logStateToConsole numberOfPreviousStatesToKeep = .ok s) :
      Reachable s
  | step (s : Store) (op : StoreOp) (h : Reachable s) : Reachable (applyOp s op)

/-! ## Helper lemmas -/

/-- The store as `setStoreState` leaves it on a mapping-object argument:
snapshot pushed (and truncated), then the argument's keys merged in.
This is the store component regardless of whether a subscriber throws,
since both field mutations precede the notification loop. -/
def mergedStore (s : Store) (props : JSObj) : Store :=
  { s with state := objAssign s.state props,
           previousStates := (addCurrentStateToPreviousStates s).previousStates }

theorem setStoreState_vobj_eval (s : Store) (props : JSObj) :
    setStoreState s (.vobj props) =
      match notifyLoop (mergedStore s props) s.subscribers with
      | (evs, some e) => ⟨mergedStore s props, evs, none, some e⟩
      | (evs, none) =>
          ⟨mergedStore s props, evs,
           if s.logStateToConsole then
             some ⟨s.name, objAssign s.state props⟩
           else none, none⟩ := rfl

theorem setStoreState_store_eq (s : Store) (props : JSObj) :
    (setStoreState s (.vobj props)).store = mergedStore s props := by
  rw [setStoreState_vobj_eval]
  rcases notifyLoop (mergedStore s props) s.subscribers with ⟨evs, _ | e⟩ <;> rfl

theorem notifyLoop_no_throw (st : Store) (l : List Subscriber)
    (h : ∀ sub ∈ l, sub.throwsOnNotify = false) :
    notifyLoop st l = (l.map (fun sub => ⟨sub.id, st.name, st⟩), none) := by
  induction l with
  | nil => rfl
  | cons x xs ih =>
    have hx : x.throwsOnNotify = false := h x (List.mem_cons_self x xs)
    have hxs : ∀ sub ∈ xs, sub.throwsOnNotify = false :=
      fun sub hs => h sub (List.mem_cons_of_mem x hs)
    simp [notifyLoop, hx, ih hxs]

theorem setStoreState_no_throw_eval (s : Store) (props : JSObj)
    (hns : ∀ sub ∈ s.subscribers, sub.throwsOnNotify = false) :
    setStoreState s (.vobj props) =
      ⟨mergedStore s props,
       s.subscribers.map (fun sub => ⟨sub.id, s.name, mergedStore s props⟩),
       if s.logStateToConsole then some ⟨s.name, objAssign s.state props⟩ else none,
       none⟩ := by
  rw [setStoreState_vobj_eval,
    notifyLoop_no_throw (mergedStore s props) s.subscribers hns]
  rfl

theorem mergedStore_previousStates (s : Store) (props : JSObj) :
    (mergedStore s props).previousStates =
      if ((s.previousStates.length + 1 : ℕ) : ℚ) > s.numberOfPreviousStatesToKeep then
        jsSliceTo (s.state :: s.previousStates) s.numberOfPreviousStatesToKeep
      else s.state :: s.previousStates := rfl

end Whitelodge

namespace Whitelodge

/-! ## Claim theorems -/

/-- Claim C1: `setStoreState(newState)` fails fatally with no mutation
unless `newState` is a mapping object; when it is, it (a) pushes the
pre-mutation state onto the front of `previousStates` truncated to the
cap, (b) shallow-merges `newState`'s own keys into `state`, (c) notifies
every current subscriber synchronously in insertion order exactly once,
each receiving the single-key payload with the store whose `state` is the
fully merged post-mutation state, and (d) emits a log entry only if
`logStateToConsole` is enabled. -/
theorem setStoreState_spec (s : Store) (props : JSObj)
    (hns : ∀ sub ∈ s.subscribers, sub.throwsOnNotify = false) :
    (∀ w : JSVal, isObject w = false →
        setStoreState s w = ⟨s, [], none, some .stateMustBeObject⟩)
    ∧ (setStoreState s (.vobj props)).error = none
    ∧ (setStoreState s (.vobj props)).store.state = objAssign s.state props
    ∧ (setStoreState s (.vobj props)).store.name = s.name
    ∧ (setStoreState s (.vobj props)).store.subscribers = s.subscribers
    ∧ (setStoreState s (.vobj props)).store.previousStates =
        (if ((s.previousStates.length + 1 : ℕ) : ℚ) > s.numberOfPreviousStatesToKeep then
          jsSliceTo (s.state :: s.previousStates) s.numberOfPreviousStatesToKeep
        else s.state :: s.previousStates)
    ∧ (setStoreState s (.vobj props)).notifications =
        s.subscribers.map
          (fun sub => ⟨sub.id, s.name, (setStoreState s (.vobj props)).store⟩)
    ∧ (∀ e ∈ (setStoreState s (.vobj props)).notifications,
        e.payloadStore.state = objAssign s.state props)
    ∧ ((setStoreState s (.vobj props)).log =
        if s.logStateToConsole then some ⟨s.name, objAssign s.state props⟩ else none) := by
  rw [setStoreState_no_throw_eval s props hns]
  refine ⟨?_, rfl, rfl, rfl, rfl, mergedStore_previousStates s props, rfl, ?_, rfl⟩
  · intro w hw
    cases w <;> simp [isObject] at hw ⊢ <;> rfl
  · intro e he
    rcases List.mem_map.mp he with ⟨sub, _, rfl⟩
    rfl

/-- Concrete store used by witnesses: one key, two live subscribers,
logging on. -/
def demoStore : Store :=
  { name := "w"
    state := [("x", .vnum 1)]
    previousStates := [[]]
    subscribers := [⟨1, true, false⟩, ⟨2, true, false⟩]
    logStateToConsole := true
    numberOfPreviousStatesToKeep := 15 }

theorem setStoreState_spec_witness :
    (∀ sub ∈ demoStore.subscribers, sub.throwsOnNotify = false)
    ∧ ((setStoreState demoStore (.vobj [("x", .vnum 2)])).error = none
      ∧ (setStoreState demoStore (.vobj [("x", .vnum 2)])).store.state =
          objAssign demoStore.state [("x", .vnum 2)]
      ∧ (setStoreState demoStore (.vobj [("x", .vnum 2)])).notifications =
          demoStore.subscribers.map
            (fun sub =>
              ⟨sub.id, demoStore.name,
               (setStoreState demoStore (.vobj [("x", .vnum 2)])).store⟩)) :=
  ⟨by decide,
   ⟨(setStoreState_spec demoStore [("x", .vnum 2)] (by decide)).2.1,
    (setStoreState_spec demoStore [("x", .vnum 2)] (by decide)).2.2.1,
    (setStoreState_spec demoStore [("x", .vnum 2)] (by decide)).2.2.2.2.2.2.1⟩⟩

/-- Claim C3: every snapshot already present in `previousStates` is left
unchanged by a later mutation: after a successful `setStoreState`, every
entry of the new history beyond the freshly pushed head is exactly the
old entry one position earlier, whatever keys (nested values included)
the merge overwrote. -/
theorem previousStates_entries_unchanged (s : Store) (props : JSObj) (i : ℕ) (x : JSObj)
    (h : (setStoreState s (.vobj props)).store.previousStates[i + 1]? = some x) :
    s.previousStates[i]? = some x := by
  rw [setStoreState_store_eq, mergedStore_previousStates] at h
  split at h
  · unfold jsSliceTo at h
    have hlen := (List.getElem?_eq_some_iff.mp h).1
    rw [List.length_take] at hlen
    rw [List.getElem?_take_of_lt (lt_of_lt_of_le hlen (min_le_left _ _))] at h
    simpa using h
  · simpa using h

theorem previousStates_entries_unchanged_witness :
    ((setStoreState demoStore (.vobj [("x", .vnum 2)])).store.previousStates[0 + 1]? =
        some [])
    ∧ demoStore.previousStates[0]? = some [] :=
  ⟨rfl,
   previousStates_entries_unchanged demoStore [("x", .vnum 2)] 0 [] rfl⟩

theorem floorToNat_cast_le (q : ℚ) (h0 : 0 ≤ q) : ((⌊q⌋.toNat : ℕ) : ℚ) ≤ q := by
  have hnn : (0 : ℤ) ≤ ⌊q⌋ := Int.floor_nonneg.mpr h0
  have hle : ((⌊q⌋ : ℤ) : ℚ) ≤ q := Int.floor_le q
  rw [← Int.toNat_of_nonneg hnn] at hle
  exact_mod_cast hle

theorem one_le_floorToNat (q : ℚ) (h1 : 1 ≤ q) : 1 ≤ ⌊q⌋.toNat := by
  have h : (1 : ℤ) ≤ ⌊q⌋ := Int.le_floor.mpr (by exact_mod_cast h1)
  omega

theorem addCurrent_previousStates (s : Store) :
    (addCurrentStateToPreviousStates s).previousStates =
      if ((clone s.state :: s.previousStates).length : ℚ) > s.numberOfPreviousStatesToKeep then
        jsSliceTo (clone s.state :: s.previousStates) s.numberOfPreviousStatesToKeep
      else clone s.state :: s.previousStates := rfl

theorem addCurrent_length_le (s : Store) (h0 : 0 ≤ s.numberOfPreviousStatesToKeep) :
    (((addCurrentStateToPreviousStates s).previousStates.length : ℕ) : ℚ) ≤
      s.numberOfPreviousStatesToKeep := by
  rw [addCurrent_previousStates]
  unfold jsSliceTo
  split
  case isTrue h =>
    simp only [List.length_take]
    calc ((min ⌊s.numberOfPreviousStatesToKeep⌋.toNat
            (clone s.state :: s.previousStates).length : ℕ) : ℚ)
        ≤ ((⌊s.numberOfPreviousStatesToKeep⌋.toNat : ℕ) : ℚ) := by
          exact_mod_cast min_le_left _ _
      _ ≤ s.numberOfPreviousStatesToKeep := floorToNat_cast_le _ h0
  case isFalse h => exact le_of_not_lt h

theorem addCurrent_head (s : Store) (h1 : 1 ≤ s.numberOfPreviousStatesToKeep) :
    (addCurrentStateToPreviousStates s).previousStates.head? = some s.state := by
  rw [addCurrent_previousStates]
  unfold jsSliceTo
  split
  · obtain ⟨m, hm⟩ : ∃ m, ⌊s.numberOfPreviousStatesToKeep⌋.toNat = m + 1 := by
      have := one_le_floorToNat _ h1
      exact ⟨⌊s.numberOfPreviousStatesToKeep⌋.toNat - 1, by omega⟩
    rw [hm, List.take_succ_cons]
    rfl
  · rfl

theorem validateArguments_none_iff (n i l : JSVal) (p : Option ℚ) :
    validateArguments n i l p = none ↔
      isNonEmptyString n = true ∧ isObject i = true ∧ isBoolean l = true ∧
        ∃ q, p = some q ∧ 1 ≤ q := by
  unfold validateArguments
  rcases p with _ | q <;>
    split_ifs with h1 h2 h3 <;>
      simp_all [Bool.not_eq_true, not_lt]

theorem mkStore_error_of_validate (name i l k : JSVal) (e : WLError)
    (h : validateArguments name i l (toNumber k) = some e) :
    mkStore name i l k = .error e := by
  unfold mkStore
  rw [h]

theorem addCurrent_blank (s : Store) (h1 : 1 ≤ s.numberOfPreviousStatesToKeep)
    (hps : s.previousStates = []) :
    (addCurrentStateToPreviousStates s).previousStates = [s.state] := by
  rw [addCurrent_previousStates, hps]
  rw [if_neg (by simpa using not_lt.mpr h1)]
  rfl

theorem mkStore_ok_of_valid (name l k : JSVal) (props : JSObj) (q : ℚ)
    (hq : toNumber k = some q)
    (hv : validateArguments name (.vobj props) l (some q) = none)
    (h1q : 1 ≤ q) :
    mkStore name (.vobj props) l k =
      .ok { name := asString name, state := objAssign [] props,
            previousStates := [[]], subscribers := [],
            logStateToConsole := asBool l,
            numberOfPreviousStatesToKeep := q } := by
  unfold mkStore
  rw [hq]
  simp only [Option.getD_some]
  rw [hv]
  have hrun := setStoreState_no_throw_eval
    { name := asString name, state := [], previousStates := [],
      subscribers := [], logStateToConsole := asBool l,
      numberOfPreviousStatesToKeep := q }
    props (by intro sub hs; cases hs)
  rw [hrun]
  dsimp only
  congr 1
  have hps := addCurrent_blank
    { name := asString name, state := [], previousStates := [],
      subscribers := [], logStateToConsole := asBool l,
      numberOfPreviousStatesToKeep := q } h1q rfl
  unfold mergedStore
  rw [hps]

theorem mkStore_ok_iff (name i l k : JSVal) (s : Store) :
    mkStore name i l k = .ok s ↔
      isNonEmptyString name = true ∧ isBoolean l = true ∧
        ∃ q props, toNumber k = some q ∧ 1 ≤ q ∧ i = .vobj props ∧
          s = { name := asString name, state := objAssign [] props,
                previousStates := [[]], subscribers := [],
                logStateToConsole := asBool l,
                numberOfPreviousStatesToKeep := q } := by
  constructor
  · intro h
    rcases hv : validateArguments name i l (toNumber k) with _ | e
    · rcases (validateArguments_none_iff name i l (toNumber k)).mp hv with
        ⟨hn, hi, hl, q, hq, h1q⟩
      obtain ⟨props, rfl⟩ : ∃ props, i = .vobj props := by
        cases i <;> simp_all [isObject]
      rw [hq] at hv
      rw [mkStore_ok_of_valid name l k props q hq hv h1q] at h
      refine ⟨hn, hl, q, props, hq, h1q, rfl, ?_⟩
      exact (Except.ok.injEq _ _).mp h.symm
    · rw [mkStore_error_of_validate name i l k e hv] at h
      exact Except.noConfusion h
  · rintro ⟨hn, hl, q, props, hq, h1q, rfl, rfl⟩
    have hv : validateArguments name (.vobj props) l (some q) = none :=
      (validateArguments_none_iff name (.vobj props) l (some q)).mpr
        ⟨hn, rfl, hl, q, rfl, h1q⟩
    exact mkStore_ok_of_valid name l k props q hq hv h1q

theorem applyOp_cap_eq (s : Store) (op : StoreOp) :
    (applyOp s op).numberOfPreviousStatesToKeep = s.numberOfPreviousStatesToKeep := by
  cases op with
  | setState v =>
    cases v <;> try rfl
    case vobj props =>
      show (setStoreState s (.vobj props)).store.numberOfPreviousStatesToKeep = _
      rw [setStoreState_store_eq]
      rfl
  | sub x =>
    show (match subscribe s x with | .ok t => t | .error _ => s).numberOfPreviousStatesToKeep = _
    unfold subscribe
    split_ifs <;> rfl
  | unsub x => rfl

theorem applyOp_length_le (s : Store) (op : StoreOp)
    (h1 : 1 ≤ s.numberOfPreviousStatesToKeep)
    (h2 : ((s.previousStates.length : ℕ) : ℚ) ≤ s.numberOfPreviousStatesToKeep) :
    (((applyOp s op).previousStates.length : ℕ) : ℚ) ≤ s.numberOfPreviousStatesToKeep := by
  cases op with
  | setState v =>
    cases v <;> try exact h2
    case vobj props =>
      show (((setStoreState s (.vobj props)).store.previousStates.length : ℕ) : ℚ) ≤ _
      rw [setStoreState_store_eq]
      exact addCurrent_length_le s (le_trans zero_le_one h1)
  | sub x =>
    show (((match subscribe s x with | .ok t => t | .error _ => s).previousStates.length : ℕ) : ℚ) ≤ _
    unfold subscribe
    split_ifs <;> exact h2
  | unsub x => exact h2

theorem reachable_invariant (s : Store) (h : Reachable s) :
    1 ≤ s.numberOfPreviousStatesToKeep ∧
      ((s.previousStates.length : ℕ) : ℚ) ≤ s.numberOfPreviousStatesToKeep := by
  induction h with
  | init n i l k s h =>
    rcases (mkStore_ok_iff n i l k s).mp h with ⟨_, _, q, props, _, h1q, _, rfl⟩
    exact ⟨h1q, by simpa using h1q⟩
  | step s op h ih =>
    refine ⟨(applyOp_cap_eq s op) ▸ ih.1, ?_⟩
    rw [applyOp_cap_eq s op]
    exact applyOp_length_le s op ih.1 ih.2

/-- Claim C2: for every store reachable by a sequence of calls after a
valid construction, `previousStates.length` never exceeds
`numberOfPreviousStatesToKeep`, and one more successful `setStoreState`
leaves at the front of `previousStates` exactly the state as it was
immediately before that mutation. -/
theorem previousStates_bounded (s : Store) (h : Reachable s) :
    ((s.previousStates.length : ℕ) : ℚ) ≤ s.numberOfPreviousStatesToKeep
    ∧ (∀ props : JSObj,
        (setStoreState s (.vobj props)).store.previousStates.head? = some s.state)
    ∧ (∀ props : JSObj,
        (setStoreState s (.vobj props)).store.previousStates =
          (if ((s.previousStates.length + 1 : ℕ) : ℚ) > s.numberOfPreviousStatesToKeep then
            jsSliceTo (s.state :: s.previousStates) s.numberOfPreviousStatesToKeep
          else s.state :: s.previousStates)) := by
  have hinv := reachable_invariant s h
  refine ⟨hinv.2, fun props => ?_, fun props => ?_⟩
  · rw [setStoreState_store_eq]
    exact addCurrent_head s hinv.1
  · rw [setStoreState_store_eq]
    exact mergedStore_previousStates s props

theorem previousStates_bounded_witness :
    ((demoStore.previousStates.length : ℕ) : ℚ) ≤ demoStore.numberOfPreviousStatesToKeep
    ∧ (setStoreState demoStore (.vobj [])).store.previousStates.head? =
        some demoStore.state := by
  have hbase : Reachable
      { name := "w", state := [("x", .vnum 1)], previousStates := [[]],
        subscribers := [], logStateToConsole := true,
        numberOfPreviousStatesToKeep := 15 } :=
    Reachable.init (.vstr "w") (.vobj [("x", .vnum 1)]) (.vbool true) (.vnum 15) _ rfl
  have h1 := Reachable.step _ (.sub ⟨1, true, false⟩) hbase
  have h2 := Reachable.step _ (.sub ⟨2, true, false⟩) h1
  have hd : Reachable demoStore := h2
  have hmain := previousStates_bounded demoStore hd
  exact ⟨hmain.1, hmain.2.1 []⟩

/-- Claim C5: a valid construction yields `state` equal to
`initialState`'s keys merged onto the empty state, `previousStates` of
length exactly 1 holding the empty pre-initial snapshot, and no
subscribers; and the resulting store is exactly what the ordinary
`setStoreState` mutation path produces from the freshly initialized
blank fields. -/
theorem store_construction (n : String) (hn : n ≠ "") (props : JSObj) (b : Bool) (q : ℚ)
    (hq : 1 ≤ q) :
    mkStore (.vstr n) (.vobj props) (.vbool b) (.vnum q) =
      .ok { name := n, state := objAssign [] props, previousStates := [[]],
            subscribers := [], logStateToConsole := b,
            numberOfPreviousStatesToKeep := q }
    ∧ mkStore (.vstr n) (.vobj props) (.vbool b) (.vnum q) =
        .ok (setStoreState
          { name := n, state := [], previousStates := [], subscribers := [],
            logStateToConsole := b, numberOfPreviousStatesToKeep := q }
          (.vobj props)).store := by
  have hne : n.isEmpty = false := by
    rw [Bool.eq_false_iff]
    intro h
    exact hn ((String.isEmpty_iff n).mp h)
  have hv : validateArguments (.vstr n) (.vobj props) (.vbool b) (some q) = none :=
    (validateArguments_none_iff (.vstr n) (.vobj props) (.vbool b) (some q)).mpr
      ⟨by simp [isNonEmptyString, hne], rfl, rfl, q, rfl, hq⟩
  have h1 := mkStore_ok_of_valid (.vstr n) (.vbool b) (.vnum q) props q rfl hv hq
  refine ⟨h1, ?_⟩
  rw [h1, setStoreState_store_eq]
  unfold mergedStore
  rw [addCurrent_blank _ hq rfl]
  rfl

theorem store_construction_witness :
    ("counter" ≠ "" ∧ (1 : ℚ) ≤ 15)
    ∧ mkStore (.vstr "counter") (.vobj [("count", .vnum 0)]) (.vbool false) (.vnum 15) =
        .ok { name := "counter", state := objAssign [] [("count", .vnum 0)],
              previousStates := [[]], subscribers := [], logStateToConsole := false,
              numberOfPreviousStatesToKeep := 15 } :=
  ⟨⟨by decide, by decide⟩,
   (store_construction "counter" (by decide) [("count", .vnum 0)] false 15 (by decide)).1⟩

/-- Claim C6: `subscribe` fails fatally when the candidate lacks a
callable `setState` or is already present (reference equality), leaving
the subscriber list unchanged in either failure; otherwise it appends
the candidate at the end, so the subscriber list never holds duplicate
references. -/
theorem subscribe_spec (s : Store) (x : Subscriber) :
    (x.hasSetState = false → subscribe s x = .error .subscriberLacksSetState)
    ∧ (x.hasSetState = true → x ∈ s.subscribers →
        subscribe s x = .error .alreadySubscribed)
    ∧ (x.hasSetState = true → x ∉ s.subscribers →
        subscribe s x = .ok { s with subscribers := s.subscribers ++ [x] })
    ∧ (∀ e, subscribe s x = .error e → applyOp s (.sub x) = s)
    ∧ (s.subscribers.Nodup → ∀ t, subscribe s x = .ok t → t.subscribers.Nodup) := by
  refine ⟨?_, ?_, ?_, ?_, ?_⟩
  · intro hx
    simp [subscribe, hx]
  · intro hx hm
    simp [subscribe, hx, hm]
  · intro hx hm
    simp only [subscribe, hx, Bool.not_true, Bool.false_eq_true, if_false]
    rw [if_neg (by simpa using hm)]
  · intro e he
    show (match subscribe s x with | .ok t => t | .error _ => s) = s
    rw [he]
  · intro hnd t ht
    unfold subscribe at ht
    by_cases h1 : x.hasSetState
    · rw [if_neg (by simp [h1])] at ht
      by_cases h2 : x ∈ s.subscribers
      · rw [if_pos (by simpa using h2)] at ht
        exact Except.noConfusion ht
      · rw [if_neg (by simpa using h2)] at ht
        cases ht
        exact List.Nodup.append hnd (List.nodup_singleton x)
          (fun b hb hbx => h2 (by rwa [List.mem_singleton.mp hbx] at hb))
    · rw [if_pos (by simp [h1])] at ht
      exact Except.noConfusion ht

theorem subscribe_spec_witness :
    ((⟨3, true, false⟩ : Subscriber).hasSetState = true
      ∧ (⟨3, true, false⟩ : Subscriber) ∉ demoStore.subscribers)
    ∧ subscribe demoStore ⟨3, true, false⟩ =
        .ok { demoStore with
              subscribers := demoStore.subscribers ++ [⟨3, true, false⟩] } :=
  ⟨⟨rfl, by decide⟩,
   (subscribe_spec demoStore ⟨3, true, false⟩).2.2.1 rfl (by decide)⟩

/-- The numerically coerced cap accepted with the fractional value 3/2:
the construction succeeds and stores a cap that is not an integer,
refuting the claim that the stored `numberOfPreviousStatesToKeep` is
always a positive integer. -/
theorem cap_not_integer_counterexample :
    mkStore (.vstr "a") (.vobj []) (.vbool false) (.vnum (mkRat 3 2)) =
      .ok { name := "a", state := [], previousStates := [[]], subscribers := [],
            logStateToConsole := false,
            numberOfPreviousStatesToKeep := mkRat 3 2 }
    ∧ (mkRat 3 2).den ≠ 1 :=
  ⟨rfl, by decide⟩

/-- Claim C7 (amended): the stored `numberOfPreviousStatesToKeep` of any
successful construction is a number `≥ 1` (not necessarily an integer),
is exactly the numeric coercion of the fourth argument (default 15), and
no later operation changes it; for otherwise-valid arguments the
construction succeeds exactly when that coercion is a valid number
`≥ 1`. -/
theorem cap_spec (name initS logF nK : JSVal) :
    (∀ s : Store, mkStore name initS logF nK = .ok s →
        1 ≤ s.numberOfPreviousStatesToKeep
        ∧ toNumber nK = some s.numberOfPreviousStatesToKeep
        ∧ ∀ op, (applyOp s op).numberOfPreviousStatesToKeep =
            s.numberOfPreviousStatesToKeep)
    ∧ (∀ s : Store, mkStoreDefaults name = .ok s →
        s.numberOfPreviousStatesToKeep = 15)
    ∧ (isNonEmptyString name = true → isObject initS = true → isBoolean logF = true →
        ((mkStore name initS logF nK).toOption.isSome = true ↔
          ∃ q, toNumber nK = some q ∧ 1 ≤ q)) := by
  refine ⟨?_, ?_, ?_⟩
  · intro s h
    rcases (mkStore_ok_iff name initS logF nK s).mp h with
      ⟨_, _, q, props, hq, h1q, _, rfl⟩
    exact ⟨h1q, hq, fun op => applyOp_cap_eq _ op⟩
  · intro s h
    rcases (mkStore_ok_iff name (.vobj []) (.vbool false) (.vnum 15) s).mp h with
      ⟨_, _, q, props, hq, h1q, _, rfl⟩
    simpa [toNumber] using hq.symm
  · intro hn hi hl
    constructor
    · intro h
      rcases ho : mkStore name initS logF nK with e | s
      · rw [ho] at h; exact absurd h (by simp [Except.toOption])
      · rcases (mkStore_ok_iff name initS logF nK s).mp ho with
          ⟨_, _, q, props, hq, h1q, _, _⟩
        exact ⟨q, hq, h1q⟩
    · rintro ⟨q, hq, h1q⟩
      obtain ⟨props, rfl⟩ : ∃ props, initS = .vobj props := by
        cases initS <;> simp_all [isObject]
      have hv : validateArguments name (.vobj props) logF (some q) = none :=
        (validateArguments_none_iff name (.vobj props) logF (some q)).mpr
          ⟨hn, rfl, hl, q, rfl, h1q⟩
      rw [mkStore_ok_of_valid name logF nK props q hq hv h1q]
      rfl

/-- Concrete store produced with cap 2, used by witnesses. -/
def capDemoStore : Store :=
  { name := "a", state := [], previousStates := [[]], subscribers := [],
    logStateToConsole := false, numberOfPreviousStatesToKeep := 2 }

theorem cap_spec_witness :
    1 ≤ capDemoStore.numberOfPreviousStatesToKeep
    ∧ toNumber (.vnum 2) = some capDemoStore.numberOfPreviousStatesToKeep
    ∧ (applyOp capDemoStore (.setState (.vobj []))).numberOfPreviousStatesToKeep =
        capDemoStore.numberOfPreviousStatesToKeep :=
  ⟨((cap_spec (.vstr "a") (.vobj []) (.vbool false) (.vnum 2)).1 capDemoStore rfl).1,
   ((cap_spec (.vstr "a") (.vobj []) (.vbool false) (.vnum 2)).1 capDemoStore rfl).2.1,
   ((cap_spec (.vstr "a") (.vobj []) (.vbool false) (.vnum 2)).1 capDemoStore rfl).2.2
     (.setState (.vobj []))⟩

theorem notifyLoop_throw (st : Store) (pre : List Subscriber) (k : Subscriber)
    (post : List Subscriber)
    (hpre : ∀ sub ∈ pre, sub.throwsOnNotify = false)
    (hk : k.throwsOnNotify = true) :
    notifyLoop st (pre ++ k :: post) =
      ((pre ++ [k]).map (fun sub => ⟨sub.id, st.name, st⟩), some .subscriberThrew) := by
  induction pre with
  | nil => simp [notifyLoop, hk]
  | cons x xs ih =>
    have hx : x.throwsOnNotify = false := hpre x (List.mem_cons_self x xs)
    have hxs : ∀ sub ∈ xs, sub.throwsOnNotify = false :=
      fun sub hs => hpre sub (List.mem_cons_of_mem x hs)
    simp [notifyLoop, hx, ih hxs]

/-- Claim C8: when subscriber k's notification callback throws during
`setStoreState`, the error propagates to the caller and the subscribers
after k receive no notification, while the history push and the state
merge have already taken effect; no console line is emitted. -/
theorem subscriber_throw_spec (s : Store) (props : JSObj)
    (pre post : List Subscriber) (k : Subscriber)
    (hsubs : s.subscribers = pre ++ k :: post)
    (hpre : ∀ sub ∈ pre, sub.throwsOnNotify = false)
    (hk : k.throwsOnNotify = true)
    (hcap : 1 ≤ s.numberOfPreviousStatesToKeep) :
    (setStoreState s (.vobj props)).error = some .subscriberThrew
    ∧ (setStoreState s (.vobj props)).notifications =
        (pre ++ [k]).map
          (fun sub => ⟨sub.id, s.name, (setStoreState s (.vobj props)).store⟩)
    ∧ (setStoreState s (.vobj props)).store.state = objAssign s.state props
    ∧ (setStoreState s (.vobj props)).store.previousStates.head? = some s.state
    ∧ (setStoreState s (.vobj props)).log = none := by
  have hloop : notifyLoop (mergedStore s props) s.subscribers =
      ((pre ++ [k]).map
        (fun sub => ⟨sub.id, (mergedStore s props).name, mergedStore s props⟩),
       some .subscriberThrew) := by
    rw [hsubs]
    exact notifyLoop_throw (mergedStore s props) pre k post hpre hk
  have hrun : setStoreState s (.vobj props) =
      ⟨mergedStore s props,
       (pre ++ [k]).map
         (fun sub => ⟨sub.id, (mergedStore s props).name, mergedStore s props⟩),
       none, some .subscriberThrew⟩ := by
    rw [setStoreState_vobj_eval, hloop]
  rw [hrun]
  exact ⟨rfl, rfl, rfl, addCurrent_head s hcap, rfl⟩

/-- Concrete store whose middle subscriber throws on notification. -/
def throwDemoStore : Store :=
  { name := "t", state := [], previousStates := [[]],
    subscribers := [⟨1, true, false⟩, ⟨2, true, true⟩, ⟨3, true, false⟩],
    logStateToConsole := false, numberOfPreviousStatesToKeep := 15 }

theorem subscriber_throw_spec_witness :
    (throwDemoStore.subscribers =
        ([⟨1, true, false⟩] : List Subscriber) ++
          (⟨2, true, true⟩ : Subscriber) :: ([⟨3, true, false⟩] : List Subscriber)
      ∧ (1 : ℚ) ≤ throwDemoStore.numberOfPreviousStatesToKeep)
    ∧ ((setStoreState throwDemoStore (.vobj [("x", .vnum 1)])).error =
        some .subscriberThrew
      ∧ (setStoreState throwDemoStore (.vobj [("x", .vnum 1)])).notifications =
          (([⟨1, true, false⟩] : List Subscriber) ++
              ([⟨2, true, true⟩] : List Subscriber)).map
            (fun sub =>
              ⟨sub.id, throwDemoStore.name,
               (setStoreState throwDemoStore (.vobj [("x", .vnum 1)])).store⟩)) :=
  ⟨⟨rfl, by decide⟩,
   (subscriber_throw_spec throwDemoStore [("x", .vnum 1)]
      [⟨1, true, false⟩] [⟨3, true, false⟩] ⟨2, true, true⟩
      rfl (by decide) rfl (by decide)).1,
   (subscriber_throw_spec throwDemoStore [("x", .vnum 1)]
      [⟨1, true, false⟩] [⟨3, true, false⟩] ⟨2, true, true⟩
      rfl (by decide) rfl (by decide)).2.1⟩

/-- Claim C10: `setStoreState` performs no change detection: every
mapping-object argument — the empty object included, and any whose merge
leaves the state equal to what it was — still pushes a snapshot onto
`previousStates` (consuming history capacity) and still notifies every
subscriber exactly once. -/
theorem no_change_detection (s : Store) (props : JSObj)
    (hns : ∀ sub ∈ s.subscribers, sub.throwsOnNotify = false)
    (hsame : objAssign s.state props = s.state) :
    (setStoreState s (.vobj props)).error = none
    ∧ (setStoreState s (.vobj props)).store.state = s.state
    ∧ (setStoreState s (.vobj props)).store.previousStates =
        (if ((s.previousStates.length + 1 : ℕ) : ℚ) > s.numberOfPreviousStatesToKeep then
          jsSliceTo (s.state :: s.previousStates) s.numberOfPreviousStatesToKeep
        else s.state :: s.previousStates)
    ∧ (setStoreState s (.vobj props)).notifications.length = s.subscribers.length
    ∧ objAssign s.state [] = s.state := by
  rw [setStoreState_no_throw_eval s props hns]
  exact ⟨rfl, hsame, mergedStore_previousStates s props, by simp, rfl⟩

theorem no_change_detection_witness :
    ((∀ sub ∈ demoStore.subscribers, sub.throwsOnNotify = false)
      ∧ objAssign demoStore.state [] = demoStore.state)
    ∧ ((setStoreState demoStore (.vobj [])).error = none
      ∧ (setStoreState demoStore (.vobj [])).store.state = demoStore.state
      ∧ (setStoreState demoStore (.vobj [])).notifications.length =
          demoStore.subscribers.length) :=
  ⟨⟨by decide, rfl⟩,
   (no_change_detection demoStore [] (by decide) rfl).1,
   (no_change_detection demoStore [] (by decide) rfl).2.1,
   (no_change_detection demoStore [] (by decide) rfl).2.2.2.1⟩

/-- First store name that repeats a name seen earlier, scanning left to
right; `seen` carries the names already pushed onto `storeNames`. -/
def firstDuplicate (seen : List String) : List String → Option String
  | [] => none
  | n :: rest =>
    if seen.contains n then some n else firstDuplicate (seen ++ [n]) rest

theorem buildStoresObject_error (stores : List Store) :
    ∀ (seen : List String) (acc : List (String × Store)) (d : String),
      firstDuplicate seen (stores.map Store.name) = some d →
      buildStoresObject stores seen acc = .error (.duplicateStoreName d) := by
  induction stores with
  | nil => intro seen acc d h; exact Option.noConfusion h
  | cons st rest ih =>
    intro seen acc d h
    simp only [List.map_cons, firstDuplicate] at h
    unfold buildStoresObject
    by_cases hc : seen.contains st.name
    · rw [if_pos hc] at h ⊢
      cases h
      rfl
    · rw [if_neg hc] at h ⊢
      exact ih _ _ d h

/-- Claim C4 (amended): with a prior registry published, a
`makeStoresGloballyAvailable` call on an array of Store instances whose
names contain a duplicate raises a duplicate-name error — the first
duplicate encountered winning — but because the code deletes the root
slot before running the duplicate check, the previously published
mapping is discarded rather than left unchanged: after the failed call
the root slot is empty. -/
theorem registry_duplicate_spec (root : RootState) (elems : List (Option Store)) (d : String)
    (hall : elems.any Option.isNone = false)
    (hdup : firstDuplicate [] ((elems.filterMap id).map Store.name) = some d) :
    makeStoresGloballyAvailable root (some elems) =
      (⟨none⟩, some (.duplicateStoreName d)) := by
  unfold makeStoresGloballyAvailable
  dsimp only
  rw [if_neg (by simp [hall])]
  rw [buildStoresObject_error (elems.filterMap id) [] [] d hdup]

/-- Stores and prior root used in the registry scenarios. -/
def storeA : Store :=
  { name := "a", state := [], previousStates := [[]], subscribers := [],
    logStateToConsole := false, numberOfPreviousStatesToKeep := 15 }

def storeB1 : Store :=
  { name := "b", state := [], previousStates := [[]], subscribers := [],
    logStateToConsole := false, numberOfPreviousStatesToKeep := 15 }

def storeB2 : Store :=
  { name := "b", state := [("y", .vnum 2)], previousStates := [[]], subscribers := [],
    logStateToConsole := false, numberOfPreviousStatesToKeep := 15 }

def rootBefore : RootState := ⟨some (.plainObject [("a", storeA)])⟩

/-- A failed duplicate-name call does not leave the previously published
registry mapping unchanged: the slot that held the mapping for store
"a" is empty afterwards. -/
theorem registry_duplicate_counterexample :
    (makeStoresGloballyAvailable rootBefore (some [some storeB1, some storeB2])).2 =
      some (.duplicateStoreName "b")
    ∧ (makeStoresGloballyAvailable rootBefore
        (some [some storeB1, some storeB2])).1.whitelodge = none
    ∧ rootBefore.whitelodge ≠ none :=
  ⟨rfl, rfl, fun h => Option.noConfusion h⟩

theorem registry_duplicate_spec_witness :
    ([some storeB1, some storeB2].any Option.isNone = false)
    ∧ makeStoresGloballyAvailable rootBefore (some [some storeB1, some storeB2]) =
        (⟨none⟩, some (.duplicateStoreName "b")) :=
  ⟨rfl,
   registry_duplicate_spec rootBefore [some storeB1, some storeB2] "b" rfl rfl⟩

/-- Subscriber standing for a mounted wrapper component, and a store it
subscribed to. -/
def mountedComponent : Subscriber := ⟨7, true, false⟩

def storeSub : Store :=
  { name := "demo", state := [], previousStates := [[]],
    subscribers := [mountedComponent],
    logStateToConsole := false, numberOfPreviousStatesToKeep := 15 }

/-- Claim C9 (code bug): the registry publisher builds the stores value
as a plain object, and the wrapper's detachment calls `forEach` on that
plain object, which has no such method — so detachment throws a
TypeError and calls `unsubscribe` on no store at all: the unmounted
component is still in the store's subscriber list. -/
theorem componentWillUnmount_throws :
    (makeStoresGloballyAvailable ⟨none⟩ (some [some storeSub])).1.whitelodge =
      some (.plainObject [("demo", storeSub)])
    ∧ componentWillUnmount (.plainObject [("demo", storeSub)]) mountedComponent =
        .error .typeErrorNoForEach
    ∧ storeSub.subscribers = [mountedComponent] :=
  ⟨rfl, rfl, rfl⟩

end Whitelodge
